import Mathlib

/-!
Verification of the kioku-cli name generator (src/main.rs) against its
specification. The Rust source is shallowly embedded: pure functions become
Lean functions, file I/O becomes explicit state passing over a map from
filenames to optional contents, and the random source of `generate_name`
is an explicit stream of draws.
-/

namespace Kioku

/-- Model of `std::io::Error` as far as this program inspects it: the
program never looks inside an I/O error, it only stores and forwards it,
so a small inductive of representative kinds suffices. -/
inductive IoError where
  | notFound : IoError
  | permissionDenied : IoError
  | brokenPipe : IoError
  | other : String → IoError
deriving DecidableEq, Repr

/-- Embeds `enum WordlistErr` from src/main.rs lines 27-32. -/
inductive WordlistErr where
  | FileErrStripped : IoError → WordlistErr
  | FileErr : String → IoError → WordlistErr
  | NotWordList : WordlistErr
deriving DecidableEq, Repr

/-- Decidable equality of `Except` results, for evaluating the parser on
concrete inputs. -/
instance except_dec_eq {ε α : Type} [DecidableEq ε] [DecidableEq α] :
    DecidableEq (Except ε α) := fun x y =>
  match x, y with
  | .ok a, .ok b =>
    if h : a = b then isTrue (by rw [h])
    else isFalse (by intro hc; cases hc; exact h rfl)
  | .error a, .error b =>
    if h : a = b then isTrue (by rw [h])
    else isFalse (by intro hc; cases hc; exact h rfl)
  | .ok _, .error _ => isFalse (by intro hc; cases hc)
  | .error _, .ok _ => isFalse (by intro hc; cases hc)

/-- Embeds `WordlistErr::strip_filename` (src/main.rs lines 34-41):
`FileErr(_, b)` becomes `FileErrStripped(b)`; every other variant is
returned unchanged. -/
def WordlistErr.strip_filename : WordlistErr → WordlistErr
  | .FileErr _ b => .FileErrStripped b
  | e => e

/-- Rust `char::is_whitespace`: membership in the Unicode `White_Space`
property, written out as the finite list of code points. -/
def rust_is_whitespace (c : Char) : Bool :=
  c = ' ' || ('\x09' ≤ c && c ≤ '\x0d') || c = '\u0085' || c = '\u00a0' ||
  c = '\u1680' || ('\u2000' ≤ c && c ≤ '\u200a') || c = '\u2028' ||
  c = '\u2029' || c = '\u202f' || c = '\u205f' || c = '\u3000'

/-- Rust `str::trim`: remove leading and trailing Unicode whitespace. -/
def rust_trim (s : String) : String :=
  String.mk (((s.data.dropWhile rust_is_whitespace).reverse.dropWhile
    rust_is_whitespace).reverse)

/-- The per-line closure of `parse_wordlist` (src/main.rs lines 69-77):
trim the line; if the trimmed line contains whitespace the whole load
fails with `NotWordList`, otherwise the trimmed line is the entry. -/
def parse_line (y : String) : Except WordlistErr String :=
  let ty := rust_trim y
  if ty.data.any rust_is_whitespace then .error WordlistErr.NotWordList
  else .ok ty

/-- Embeds `parse_wordlist` (src/main.rs lines 65-80) at the level of the
lines read from the file: `lines().map(...).collect::<Result<Vec<_>,_>>()`
maps each line through `parse_line` and stops at the first error, so no
partial wordlist is ever produced. The file-open step (which yields
`FileErr` on failure) is the I/O boundary and is not needed by the content
claims. -/
def parse_wordlist : List String → Except WordlistErr (List String)
  | [] => .ok []
  | y :: rest =>
    match parse_line y with
    | .error e => .error e
    | .ok w =>
      match parse_wordlist rest with
      | .error e => .error e
      | .ok ws => .ok (w :: ws)

/-- Loop body of `generate_name` (src/main.rs lines 85-92). `draws` is the
stream of values produced by the random source; `rng.random_range(0..len)`
yields an arbitrary value in `[0, len)`, modelled as `draws k % len`, and
panics when the range is empty (`len = 0`), modelled as `none`. `k` counts
the draws made so far, `n` the positions still to fill, `output` is the
string built up. The word reached by the draw is appended, preceded by a
single hyphen whenever `output` is non-empty. -/
def generate_name_go (wordlist : List String) (draws : Nat → Nat) :
    Nat → Nat → String → Option String
  | _, 0, output => some output
  | k, n + 1, output =>
    if h : wordlist.length = 0 then none
    else
      let word := wordlist.get
        ⟨draws k % wordlist.length, Nat.mod_lt _ (Nat.pos_of_ne_zero h)⟩
      let output1 := if output.length = 0 then output ++ word
        else output ++ "-" ++ word
      generate_name_go wordlist draws (k + 1) n output1

/-- Embeds `generate_name` (src/main.rs lines 82-94), with the random
source made explicit as the stream `draws`. Returns `none` exactly when the
Rust function panics (an index drawn from an empty range). -/
def generate_name (wordlist : List String) (num_words : Nat)
    (draws : Nat → Nat) : Option String :=
  generate_name_go wordlist draws 0 num_words ""

/-- Embeds `struct MetaData` (src/main.rs lines 58-63). -/
structure MetaData where
  label : String
  revision : Option String
  timestamp : String
deriving DecidableEq, Repr

/-- One four-bit value as a lowercase hexadecimal digit. -/
def hex_digit (n : Nat) : Char :=
  if n < 10 then Char.ofNat (n + 48) else Char.ofNat (n - 10 + 97)

/-- serde_json escaping of one character inside a JSON string: quote and
backslash are backslash-escaped, the named control escapes are used for
backspace, form feed, newline, carriage return and tab, any other control
character below U+0020 becomes a `\u00XX` escape, and everything else is
emitted verbatim. -/
def escape_json_char (c : Char) : String :=
  if c = '"' then "\\\""
  else if c = '\\' then "\\\\"
  else if c = '\x08' then "\\b"
  else if c = '\x0c' then "\\f"
  else if c = '\n' then "\\n"
  else if c = '\r' then "\\r"
  else if c = '\x09' then "\\t"
  else if c.toNat < 0x20 then
    "\\u00" ++ String.mk [hex_digit (c.toNat / 16), hex_digit (c.toNat % 16)]
  else String.singleton c

/-- serde_json rendering of a Rust `String` as a JSON string literal. -/
def json_string (s : String) : String :=
  "\"" ++ String.join (s.data.map escape_json_char) ++ "\""

/-- serde_json rendering of an `Option<String>` field value: `null` when
absent, a JSON string when present. -/
def json_opt_string : Option String → String
  | none => "null"
  | some s => json_string s

/-- The bytes `serde_json::to_writer_pretty` emits for a `MetaData` value
(src/main.rs line 123): a pretty-printed object with two-space indent,
fields in declaration order, and no trailing newline. -/
def to_writer_pretty (meta : MetaData) : String :=
  "\x7b\n  \"label\": " ++ json_string meta.label ++
  ",\n  \"revision\": " ++ json_opt_string meta.revision ++
  ",\n  \"timestamp\": " ++ json_string meta.timestamp ++ "\n\x7d"

/-- Rust `str::ends_with` on string literals, at the character level. -/
def string_ends_with (s t : String) : Bool :=
  t.data.isSuffixOf s.data

/-- The filename actually opened by `generate_metadata` (src/main.rs lines
116-122): a name ending in `.jsonl` or `.json` is used as-is, otherwise
`.json` is appended. -/
def resolve_filename (filename : String) : String :=
  if string_ends_with filename ".jsonl" || string_ends_with filename ".json"
  then filename
  else filename ++ ".json"

/-- The new contents of the target file after one `generate_metadata` call
(src/main.rs lines 109-124). The `OpenOptions` are `create(true)` plus
`append(true)` when `filename` ends in `.jsonl` and `write(true)` otherwise;
`old = none` means the file did not exist (it is created empty). Append
mode adds the serialized record after the old contents. Write mode without
`truncate` overwrites from position 0 and leaves any remaining old bytes in
place. -/
def generate_metadata_content (filename : String) (meta : MetaData)
    (old : Option String) : String :=
  let written := to_writer_pretty meta
  if string_ends_with filename ".jsonl" then old.getD "" ++ written
  else written ++ String.mk ((old.getD "").data.drop written.data.length)

/-- The effect of `generate_metadata` (src/main.rs lines 96-125) on the
file system, modelled as a map from filenames to optional contents: only
the resolved target file changes. -/
def generate_metadata (filename : String) (meta : MetaData)
    (fs : String → Option String) : String → Option String :=
  let target := resolve_filename filename
  fun p => if p = target
    then some (generate_metadata_content filename meta (fs target))
    else fs p

/-- The observable actions of one run, used to state ordering claims. -/
inductive Event where
  | probeRevision : Event
  | writeMetadata : String → Event
  | printName : String → Event
deriving DecidableEq, Repr

/-- The actions `generate_metadata` performs, in order (src/main.rs lines
96-124): it probes the git revision first, then writes the record to the
resolved target file. -/
def generate_metadata_events (filename : String) : List Event :=
  [Event.probeRevision, Event.writeMetadata (resolve_filename filename)]

/-- The observable actions of a successful `inner_main` run after the name
has been generated (src/main.rs lines 179-184): when an output path is
given, `generate_metadata` runs first; the name is printed to standard
output last. -/
def inner_main_events (output : Option String) (name : String) :
    List Event :=
  (match output with
   | some f => generate_metadata_events f
   | none => []) ++ [Event.printName name]

/-- The error type of `inner_main` (`Box<dyn std::error::Error>`): a
wordlist error, a formatted message (from the default-wordlist `map_err`
or the acquisition flow), or an I/O error from `generate_metadata`. -/
inductive AppError where
  | wordlist : WordlistErr → AppError
  | msg : String → AppError
  | io : IoError → AppError
deriving DecidableEq, Repr

/-- The join the specification describes for `generate`: the words of the
list separated by single hyphens, with no leading or trailing separator,
empty for the empty list. Stated from the spec's words, to be compared
with the string `generate_name` builds. -/
def spec_join_hyphen : List String → String
  | [] => ""
  | [w] => w
  | w :: ws => w ++ "-" ++ spec_join_hyphen ws

/-- Embeds `main` (src/main.rs lines 187-192): the process exit code and
the diagnostic message, as a function of the result of `inner_main`. On
`Ok` the process ends normally (exit code 0, no message); on `Err(e)` the
message is printed to the diagnostic stream and the process exits with
code 1. No other exit path exists in the source. -/
def main_exit : Except AppError Unit → Nat × Option String
  | .ok _ => (0, none)
  | .error e => (1, some (toString (repr e)))

/-! Helper lemmas about strings, shared by several proofs. -/

theorem string_append_assoc (a b c : String) : a ++ b ++ c = a ++ (b ++ c) := by
  apply congrArg String.mk
  show a.data ++ b.data ++ c.data = a.data ++ (b.data ++ c.data)
  simp [List.append_assoc]

theorem string_empty_append (s : String) : "" ++ s = s := by
  cases s with
  | mk data => rfl

theorem string_ne_empty_length (s : String) (h : s ≠ "") : ¬ s.length = 0 := by
  intro hc
  apply h
  cases s with
  | mk data =>
    have hd : data = [] := List.length_eq_zero.mp hc
    simp [hd]

theorem string_append_hyphen_ne_empty (a b : String) : a ++ "-" ++ b ≠ "" := by
  intro hc
  have hd : (a ++ "-" ++ b).data = [] := by rw [hc]
  have hd2 : (a.data ++ ['-']) ++ b.data = [] := hd
  simp at hd2

theorem spec_join_hyphen_glue (a b : String) (l : List String) :
    spec_join_hyphen ((a ++ "-" ++ b) :: l) = spec_join_hyphen (a :: b :: l) := by
  cases l with
  | nil => rfl
  | cons x xs =>
    show (a ++ "-" ++ b) ++ "-" ++ spec_join_hyphen (x :: xs) =
      a ++ "-" ++ (b ++ "-" ++ spec_join_hyphen (x :: xs))
    simp only [string_append_assoc]

/-- Unfolding lemma for one loop iteration of `generate_name_go` when the
wordlist is non-empty. -/
theorem generate_name_go_succ (wordlist : List String) (draws : Nat → Nat)
    (hlen : 0 < wordlist.length) (k n : Nat) (s : String) :
    generate_name_go wordlist draws k (n + 1) s =
      generate_name_go wordlist draws (k + 1) n
        (if s.length = 0
         then s ++ wordlist.get ⟨draws k % wordlist.length, Nat.mod_lt _ hlen⟩
         else s ++ "-" ++
           wordlist.get ⟨draws k % wordlist.length, Nat.mod_lt _ hlen⟩) := by
  simp only [generate_name_go]
  rw [dif_neg (Nat.pos_iff_ne_zero.mp hlen)]

/-- Invariant of the generation loop: starting from a non-empty
accumulator `s`, the loop terminates with `s` followed by `n` further
wordlist members, all hyphen-joined. -/
theorem generate_name_go_join (wordlist : List String) (draws : Nat → Nat)
    (hlen : 0 < wordlist.length) :
    ∀ (n k : Nat) (s : String), s ≠ "" →
      ∃ ws : List String, ws.length = n ∧ (∀ w ∈ ws, w ∈ wordlist) ∧
        generate_name_go wordlist draws k n s =
          some (spec_join_hyphen (s :: ws)) := by
  intro n
  induction n with
  | zero =>
    intro k s _
    exact ⟨[], rfl, by simp, rfl⟩
  | succ m ih =>
    intro k s hs
    rw [generate_name_go_succ wordlist draws hlen k m s]
    rw [if_neg (string_ne_empty_length s hs)]
    obtain ⟨ws, h1, h2, h3⟩ := ih (k + 1)
      (s ++ "-" ++ wordlist.get ⟨draws k % wordlist.length, Nat.mod_lt _ hlen⟩)
      (string_append_hyphen_ne_empty _ _)
    refine ⟨wordlist.get ⟨draws k % wordlist.length, Nat.mod_lt _ hlen⟩ :: ws,
      by simp [h1], ?_, ?_⟩
    · intro w hw
      rcases List.mem_cons.mp hw with h | h
      · exact h ▸ List.get_mem _ _ _
      · exact h2 w h
    · rw [h3, spec_join_hyphen_glue]

/-- The generation loop always terminates with a value when the wordlist
is non-empty: every drawn index is reduced into bounds, so no panic. -/
theorem generate_name_go_isSome (wordlist : List String) (draws : Nat → Nat)
    (hlen : 0 < wordlist.length) :
    ∀ (n k : Nat) (s : String),
      (generate_name_go wordlist draws k n s).isSome = true := by
  intro n
  induction n with
  | zero => intro k s; rfl
  | succ m ih =>
    intro k s
    rw [generate_name_go_succ wordlist draws hlen k m s]
    exact ih (k + 1) _

/-- Claim C3: for every non-empty wordlist whose words are non-empty (the
spec's Word invariant), every length, and every behaviour of the random
source, `generate_name` returns exactly that many wordlist members joined
by single hyphens, and length 0 yields the empty string. -/
theorem generate_name_spec (wordlist : List String) (num_words : Nat)
    (draws : Nat → Nat) (hne : wordlist ≠ [])
    (hwords : ∀ w ∈ wordlist, w ≠ "") :
    (∃ ws : List String, ws.length = num_words ∧
        (∀ w ∈ ws, w ∈ wordlist) ∧
        generate_name wordlist num_words draws =
          some (spec_join_hyphen ws)) ∧
    generate_name wordlist 0 draws = some "" := by
  have hlen : 0 < wordlist.length := List.length_pos.mpr hne
  refine ⟨?_, rfl⟩
  cases num_words with
  | zero => exact ⟨[], rfl, by simp, rfl⟩
  | succ m =>
    have hstep : generate_name wordlist (m + 1) draws =
        generate_name_go wordlist draws 1 m
          (wordlist.get ⟨draws 0 % wordlist.length, Nat.mod_lt _ hlen⟩) := by
      show generate_name_go wordlist draws 0 (m + 1) "" = _
      rw [generate_name_go_succ wordlist draws hlen 0 m ""]
      rw [if_pos (show String.length "" = 0 from rfl), string_empty_append]
    have hwmem : wordlist.get ⟨draws 0 % wordlist.length, Nat.mod_lt _ hlen⟩
        ∈ wordlist := List.get_mem _ _ _
    obtain ⟨ws, h1, h2, h3⟩ := generate_name_go_join wordlist draws hlen m 1
      (wordlist.get ⟨draws 0 % wordlist.length, Nat.mod_lt _ hlen⟩)
      (hwords _ hwmem)
    refine ⟨wordlist.get ⟨draws 0 % wordlist.length, Nat.mod_lt _ hlen⟩ :: ws,
      by simp [h1], ?_, by rw [hstep, h3]⟩
    intro w hw
    rcases List.mem_cons.mp hw with h | h
    · exact h ▸ hwmem
    · exact h2 w h

/-- Witness for C3 at the concrete wordlist `["alpha", "beta"]`, length 2
and the identity draw stream. -/
theorem generate_name_spec_witness :
    (∃ ws : List String, ws.length = 2 ∧
        (∀ w ∈ ws, w ∈ ["alpha", "beta"]) ∧
        generate_name ["alpha", "beta"] 2 (fun k => k) =
          some (spec_join_hyphen ws)) ∧
    generate_name ["alpha", "beta"] 0 (fun k => k) = some "" :=
  generate_name_spec ["alpha", "beta"] 2 (fun k => k) (by decide) (by decide)

/-- Claim C9: with an empty wordlist and length at least 1 the index draw
ranges over an empty interval and `generate_name` panics (modelled as
`none`); with a non-empty wordlist every drawn index is in bounds and the
call returns a value for every length. -/
theorem generate_name_total_iff (num_words : Nat) (draws : Nat → Nat)
    (wordlist : List String) :
    (1 ≤ num_words → generate_name [] num_words draws = none) ∧
    (wordlist ≠ [] →
      (generate_name wordlist num_words draws).isSome = true) := by
  constructor
  · intro h
    cases num_words with
    | zero => exact absurd h (by decide)
    | succ m => rfl
  · intro h
    exact generate_name_go_isSome wordlist draws (List.length_pos.mpr h)
      num_words 0 ""

/-- Witness for C9 at length 1, the empty wordlist for the panic half and
the wordlist `["a"]` for the total half. -/
theorem generate_name_total_iff_witness :
    generate_name [] 1 (fun _ => 0) = none ∧
    (generate_name ["a"] 1 (fun _ => 0)).isSome = true :=
  ⟨(generate_name_total_iff 1 (fun _ => 0) ["a"]).1 (by decide),
   (generate_name_total_iff 1 (fun _ => 0) ["a"]).2 (by decide)⟩

/-- Every line the per-line validation accepts is free of whitespace. -/
theorem parse_line_ok_no_whitespace (y w : String)
    (h : parse_line y = .ok w) : w.data.any rust_is_whitespace = false := by
  simp only [parse_line] at h
  split at h
  · cases h
  · rename_i hcond
    cases h
    simpa using hcond

/-- Claim C4 (counterexample): an input file whose second line is empty
loads successfully and the empty line is admitted as the empty-string
word, so loaded entries are not all non-empty and empty lines are neither
rejected nor filtered. -/
theorem parse_wordlist_admits_empty_lines :
    parse_wordlist ["foo", "", "bar"] = Except.ok ["foo", "", "bar"] ∧
    ("" : String) ∈ ["foo", "", "bar"] := by
  exact ⟨by decide, by simp⟩

/-- Claim C4 (amended): every entry of a successfully loaded wordlist
contains no whitespace, but entries may be empty: an empty line is
admitted as the empty-string word. -/
theorem parse_wordlist_entries_no_whitespace (lines ws : List String)
    (h : parse_wordlist lines = Except.ok ws) :
    ∀ w ∈ ws, w.data.any rust_is_whitespace = false := by
  induction lines generalizing ws with
  | nil =>
    unfold parse_wordlist at h
    cases h
    simp
  | cons y rest ih =>
    unfold parse_wordlist at h
    split at h
    · cases h
    · rename_i w1 hline
      split at h
      · cases h
      · rename_i ws1 hrest
        cases h
        intro w hw
        rcases List.mem_cons.mp hw with hc | hc
        · exact hc ▸ parse_line_ok_no_whitespace y w1 hline
        · exact ih ws1 hrest w hc

/-- Witness for C4 (amended) at the concrete input lines
`["foo", " qux "]`. -/
theorem parse_wordlist_entries_no_whitespace_witness :
    "qux".data.any rust_is_whitespace = false :=
  parse_wordlist_entries_no_whitespace ["foo", " qux "] ["foo", "qux"]
    (by decide) "qux" (by simp)

/-- Claim C7: under the strict policy, loading the three lines `foo`,
`bar baz`, `qux` fails with the single hard error `NotWordList`, because
the second line still contains whitespace after trimming; no partial
wordlist is returned. -/
theorem parse_wordlist_strict_whitespace_failure :
    parse_wordlist ["foo", "bar baz", "qux"] =
      Except.error WordlistErr.NotWordList := by
  decide

/-- Claim C8: a metadata path ending in `.json` or `.jsonl` is used as the
target filename unchanged; any other path gets `.json` appended. -/
theorem resolve_filename_spec (p : String) :
    ((string_ends_with p ".json" = true ∨ string_ends_with p ".jsonl" = true) →
      resolve_filename p = p) ∧
    (string_ends_with p ".json" = false → string_ends_with p ".jsonl" = false →
      resolve_filename p = p ++ ".json") := by
  constructor
  · rintro (h | h) <;> simp [resolve_filename, h]
  · intro h1 h2
    simp [resolve_filename, h1, h2]

/-- Witness for C8 at the paths `run.json` (kept as-is) and `run`
(suffix appended). -/
theorem resolve_filename_spec_witness :
    resolve_filename "run.json" = "run.json" ∧
    resolve_filename "run" = "run" ++ ".json" :=
  ⟨(resolve_filename_spec "run.json").1 (Or.inl (by decide)),
   (resolve_filename_spec "run").2 (by decide) (by decide)⟩

/-- Claim C10: `strip_filename` maps `FileErr(path, cause)` to
`FileErrStripped(cause)`, is the identity on `FileErrStripped` and
`NotWordList`, and is idempotent. -/
theorem strip_filename_spec :
    (∀ (p : String) (c : IoError),
      (WordlistErr.FileErr p c).strip_filename =
        WordlistErr.FileErrStripped c) ∧
    (∀ c : IoError,
      (WordlistErr.FileErrStripped c).strip_filename =
        WordlistErr.FileErrStripped c) ∧
    WordlistErr.NotWordList.strip_filename = WordlistErr.NotWordList ∧
    (∀ e : WordlistErr,
      e.strip_filename.strip_filename = e.strip_filename) := by
  refine ⟨fun p c => rfl, fun c => rfl, rfl, fun e => ?_⟩
  cases e <;> rfl

/-- Claim C5 (counterexample): with output path `run.json` and generated
name `x`, the run's event trace is probe, then metadata write, then print:
the name is not printed before the revision probe and the write. -/
theorem inner_main_print_order_counterexample :
    inner_main_events (some "run.json") "x" =
      [Event.probeRevision, Event.writeMetadata "run.json",
       Event.printName "x"] ∧
    ¬ Event.printName "x" ∈
        (inner_main_events (some "run.json") "x").take 2 := by
  exact ⟨by decide, by decide⟩

/-- Claim C5 (amended): in every run with an output path, the revision
probe and the metadata write happen first and the generated name is
printed to standard output last. -/
theorem inner_main_print_last (f name : String) :
    ∃ pre : List Event,
      inner_main_events (some f) name = pre ++ [Event.printName name] ∧
      Event.probeRevision ∈ pre ∧
      Event.writeMetadata (resolve_filename f) ∈ pre := by
  refine ⟨generate_metadata_events f, rfl, ?_, ?_⟩
  · simp [generate_metadata_events]
  · simp [generate_metadata_events]

/-- Claim C6 (counterexample): a broken-pipe I/O error surfaced by the run
exits with code 1 and a printed diagnostic message, not quietly with 141:
`main` has no broken-pipe special case at all. -/
theorem main_exit_broken_pipe_counterexample :
    (main_exit (Except.error (AppError.io IoError.brokenPipe))).1 = 1 ∧
    (main_exit (Except.error (AppError.io IoError.brokenPipe))).2 ≠ none ∧
    (main_exit (Except.error (AppError.io IoError.brokenPipe))).1 ≠ 141 := by
  refine ⟨rfl, ?_, by decide⟩
  simp [main_exit]

/-- Claim C6 (amended): the process exits with code 0 and no message on
success, and with code 1 plus a diagnostic message on every error; no
other exit code, in particular not 141, is produced by `main`. -/
theorem main_exit_spec :
    main_exit (Except.ok ()) = (0, none) ∧
    ∀ e : AppError, (main_exit (Except.error e)).1 = 1 ∧
      ((main_exit (Except.error e)).2).isSome = true := by
  exact ⟨rfl, fun e => ⟨rfl, rfl⟩⟩

/-- Claim C1 (code evaluated at the failing input): two writes to a fresh
`run.jsonl` append and preserve the first record, but each record is the
pretty-printed multi-line object with no trailing newline, so the file
does not consist of two independently parsable JSON lines. -/
theorem generate_metadata_jsonl_not_lines :
    (generate_metadata "run.jsonl" (MetaData.mk "b" none "t")
        (generate_metadata "run.jsonl" (MetaData.mk "a" none "t")
          (fun _ => none))) "run.jsonl" =
      some (to_writer_pretty (MetaData.mk "a" none "t") ++
            to_writer_pretty (MetaData.mk "b" none "t")) ∧
    (to_writer_pretty (MetaData.mk "a" none "t")).data.getLast? ≠
      some '\n' ∧
    '\n' ∈ (to_writer_pretty (MetaData.mk "a" none "t")).data := by
  exact ⟨by decide, by decide, by decide⟩

/-- Claim C2 (code evaluated at the failing input): the `.json` target is
opened with write but not truncate, so after a longer first record the
shorter second record leaves trailing bytes of the first in place and the
file holds more than the second record alone. -/
theorem generate_metadata_json_no_truncate :
    (generate_metadata "run.json" (MetaData.mk "b" none "t")
        (generate_metadata "run.json" (MetaData.mk "aaaa" none "t")
          (fun _ => none))) "run.json" =
      some (to_writer_pretty (MetaData.mk "b" none "t") ++ "\"\n\x7d") ∧
    to_writer_pretty (MetaData.mk "b" none "t") ++ "\"\n\x7d" ≠
      to_writer_pretty (MetaData.mk "b" none "t") := by
  exact ⟨by decide, by decide⟩

end Kioku
